import Mathlib

/-!
Shallow embedding of the connections controller of GUI.for.Clash
(src/frontend/src/views/HomeView/ConnectionsController.vue).

The component keeps three pieces of state:
  * `TrafficCache` — a module-level record from connection id to the last
    cumulative upload/download counters written for that id (lines 14-15);
  * `dataSource` — the live connections, each enriched with `up`/`down`
    baseline fields (line 210);
  * `disconnectedData` — connections that dropped out of the feed (line 211);
plus the `isPause` toggle (line 214).

JavaScript numbers holding cumulative byte counters are modelled as `Nat`;
the derived rate `record.upload - value` (customRender, lines 113 and 122)
is real subtraction, so it is modelled as an `Int`.  The JS record
`TrafficCache` is modelled as an association list with first-match lookup
and prepend-on-write (so a later write shadows an earlier one, matching
object-key overwrite).  JS string truthiness (`cache?.up || x`, `host ? _ : _`)
distinguishes `0`/`""` (falsy) from everything else, and is modelled by
explicit comparisons with `0` and `""`.
-/

set_option autoImplicit false

namespace GUIForClash

/-- Connection metadata fields used by the controller (a subset of the
kernel schema): `host` and `destinationIP` feed the keyword filter and the
rule-set payload; `process` stands for the remaining metadata fields that
the keyword filter must not consult. -/
structure ConnMetadata where
  host : String
  destinationIP : String
  process : String
  deriving Repr, DecidableEq

/-- One decoded connection record of a batch (`KernelConnectionsWS['connections'][0]`):
identity, metadata and the cumulative upload/download counters. -/
structure Connection where
  id : String
  metadata : ConnMetadata
  upload : Nat
  download : Nat
  deriving Repr, DecidableEq

/-- `type TrafficCacheType = { up: number; down: number }` (line 14). -/
structure TrafficCacheType where
  up : Nat
  down : Nat
  deriving Repr, DecidableEq

/-- The module-level `TrafficCache: Record<string, TrafficCacheType>`
(line 15), as an association list. -/
abbrev Cache := List (String × TrafficCacheType)

/-- Lookup `TrafficCache[id]`: first binding wins. -/
def cacheLookup (cache : Cache) (id : String) : Option TrafficCacheType :=
  match cache with
  | [] => none
  | (k, v) :: rest => if k = id then some v else cacheLookup rest id

/-- Assignment `TrafficCache[id] = v`: prepend, shadowing any older binding. -/
def cacheSet (cache : Cache) (id : String) (v : TrafficCacheType) : Cache :=
  (id, v) :: cache

/-- An element of `dataSource`: a connection plus the `up`/`down` baseline
fields added in `onConnections` (line 230),
`KernelConnectionsWS['connections'][0] & TrafficCacheType`. -/
structure ConnectionEntry where
  conn : Connection
  up : Nat
  down : Nat
  deriving Repr, DecidableEq

/-- The controller state threaded through `onConnections` and the user
actions: `dataSource`, `disconnectedData`, the `TrafficCache` record and
the `isPause` flag. -/
structure ControllerState where
  dataSource : List ConnectionEntry
  disconnectedData : List ConnectionEntry
  cache : Cache
  isPause : Bool
  deriving Repr, DecidableEq

/-- The state at component creation: empty ledger, empty cache, not paused. -/
def initState : ControllerState :=
  { dataSource := [], disconnectedData := [], cache := [], isPause := false }

/-- The baseline chosen for the upload counter:
`result.up = cache?.up || connection.upload` (line 232).  An absent cache
entry, or a cached value of `0` (falsy), falls back to the current counter. -/
def prevUp (cache : Cache) (connection : Connection) : Nat :=
  match cacheLookup cache connection.id with
  | some t => if t.up = 0 then connection.upload else t.up
  | none => connection.upload

/-- The baseline chosen for the download counter:
`result.down = cache?.down || connection.download` (line 233). -/
def prevDown (cache : Cache) (connection : Connection) : Nat :=
  match cacheLookup cache connection.id with
  | some t => if t.down = 0 then connection.download else t.down
  | none => connection.download

/-- The body of the `connections.map` callback (lines 228-239): build the
enriched entry from the cache, then write the current counters back into
`TrafficCache`. -/
def processConn (cache : Cache) (connection : Connection) :
    Cache × ConnectionEntry :=
  (cacheSet cache connection.id
      { up := connection.upload, down := connection.download },
   { conn := connection,
     up := prevUp cache connection,
     down := prevDown cache connection })

/-- `connections.map(...)` with the `TrafficCache` writes threaded
left-to-right, as JS evaluates the callback on each element in order. -/
def processBatch (cache : Cache) (connections : List Connection) :
    Cache × List ConnectionEntry :=
  match connections with
  | [] => (cache, [])
  | c :: rest =>
    let r := processConn cache c
    let rs := processBatch r.1 rest
    (rs.1, r.2 :: rs.2)

/-- The `dataSource.value.forEach` pass (lines 222-226): push every
previously-live entry whose id is absent from the new batch onto
`disconnectedData`, in live-set order. -/
def recordDisconnected (connections : List Connection)
    (live closed : List ConnectionEntry) : List ConnectionEntry :=
  live.foldl
    (fun acc e =>
      if connections.any (fun v => v.id == e.conn.id) then acc
      else acc ++ [e])
    closed

/-- `onConnections` (lines 218-240): bail out while paused; default a
missing `connections` field to `[]`; record disconnected entries; rebuild
`dataSource` from the batch while updating `TrafficCache`. -/
def onConnections (st : ControllerState) (data : Option (List Connection)) :
    ControllerState :=
  if st.isPause then st
  else
    let connections := data.getD []
    let closed := recordDisconnected connections st.dataSource st.disconnectedData
    let r := processBatch st.cache connections
    { st with dataSource := r.2, disconnectedData := closed, cache := r.1 }

/-- The upload rate derived by the `up` column
(`customRender: formatBytes(record.upload - value)`, line 113, and the
sort comparator on line 112): current cumulative counter minus baseline. -/
def upRate (e : ConnectionEntry) : Int :=
  (e.conn.upload : Int) - (e.up : Int)

/-- The download rate derived by the `down` column (lines 121-122). -/
def downRate (e : ConnectionEntry) : Int :=
  (e.conn.download : Int) - (e.down : Int)

/-- The `home.connections.close` menu handler (lines 172-183), with the
outcome of the external `deleteConnection` call passed in as `ok`.
Returns the state after the handler and whether `message.error` fired.
The handler returns early when the closed tab is selected; otherwise it
awaits the terminate call and only reports a failure — it never touches
`dataSource`, `disconnectedData` or `TrafficCache`. -/
def menuCloseHandler (isActive : Bool) (st : ControllerState) (ok : Bool) :
    ControllerState × Bool :=
  if !isActive then (st, false)
  else if ok then (st, false)
  else (st, true)

/-- The rule expression built by the `addTo*` menu handlers (lines 193-195):
`behavior = host ? 'DOMAIN' : 'IP-CIDR'`,
`payload = host || destinationIP + '/32,no-resolve'`,
submitted as `behavior + ',' + payload`. -/
def ruleExpression (m : ConnMetadata) : String :=
  let behavior := if m.host = "" then "IP-CIDR" else "DOMAIN"
  let payload := if m.host = "" then m.destinationIP ++ "/32,no-resolve" else m.host
  behavior ++ "," ++ payload

/-- `String.prototype.includes`: case-sensitive substring test, here on the
underlying character lists. -/
def listIncludes (sub : List Char) : List Char → Bool
  | [] => List.isPrefixOf sub []
  | c :: t => List.isPrefixOf sub (c :: t) || listIncludes sub t

/-- `haystack.includes(needle)` on Lean strings. -/
def strIncludes (s sub : String) : Bool :=
  listIncludes sub.toList s.toList

/-- `filteredConnections` (lines 242-247): an empty keyword returns the
current selection unfiltered; otherwise filter the selection by
`connection.metadata.host.includes(keywords)`. -/
def filteredConnections (keywords : String) (isActive : Bool)
    (st : ControllerState) : List ConnectionEntry :=
  if keywords = "" then
    (if isActive then st.dataSource else st.disconnectedData)
  else
    (if isActive then st.dataSource else st.disconnectedData).filter
      (fun connection => strIncludes connection.conn.metadata.host keywords)

/-- `handleClearClosedConns` (lines 253-255): `disconnectedData.value.splice(0)`. -/
def handleClearClosedConns (st : ControllerState) : ControllerState :=
  { st with disconnectedData := [] }

/-- `togglePause` (line 214): flip the `isPause` flag. -/
def togglePause (st : ControllerState) : ControllerState :=
  { st with isPause := !st.isPause }

/-- One user-visible event acting on the controller state: a delivered
batch, the pause toggle, the clear-closed button, or the close menu item
(with the selected tab and the outcome of the terminate call). -/
inductive Action where
  | batch (data : Option (List Connection))
  | togglePause
  | clearClosed
  | closeOne (isActive ok : Bool)
  deriving Repr, DecidableEq

/-- Apply one action to the controller state. -/
def stepA (st : ControllerState) (a : Action) : ControllerState :=
  match a with
  | .batch data => onConnections st data
  | .togglePause => togglePause st
  | .clearClosed => handleClearClosedConns st
  | .closeOne isActive ok => (menuCloseHandler isActive st ok).1

/-- Run a trace of actions from a starting state. -/
def run (st : ControllerState) (as : List Action) : ControllerState :=
  as.foldl stepA st

/-- A batch action is well-formed when the kernel reports each connection
identity at most once (a batch is a snapshot of the live set). -/
def actionOK (a : Action) : Prop :=
  match a with
  | .batch (some b) => (b.map Connection.id).Nodup
  | _ => True

instance (a : Action) : Decidable (actionOK a) := by
  cases a with
  | batch data =>
    cases data with
    | none => exact isTrue trivial
    | some b => exact inferInstanceAs (Decidable ((b.map Connection.id).Nodup))
  | togglePause => exact isTrue trivial
  | clearClosed => exact isTrue trivial
  | closeOne isActive ok => exact isTrue trivial

/-! ### Helper lemmas about the cache and batch processing -/

theorem cacheLookup_cacheSet (cache : Cache) (k k2 : String) (v : TrafficCacheType) :
    cacheLookup (cacheSet cache k v) k2 = if k = k2 then some v else cacheLookup cache k2 :=
  rfl

theorem processBatch_map_conn (cache : Cache) (b : List Connection) :
    ((processBatch cache b).2).map ConnectionEntry.conn = b := by
  induction b generalizing cache with
  | nil => rfl
  | cons c rest ih => simp [processBatch, processConn, ih]

theorem cacheLookup_processBatch_of_not_mem (cache : Cache) (b : List Connection)
    (id : String) (h : ∀ c ∈ b, c.id ≠ id) :
    cacheLookup (processBatch cache b).1 id = cacheLookup cache id := by
  induction b generalizing cache with
  | nil => rfl
  | cons c rest ih =>
    have hc : c.id ≠ id := h c (by simp)
    have hrest : ∀ x ∈ rest, x.id ≠ id := fun x hx => h x (by simp [hx])
    simp only [processBatch, processConn]
    rw [ih _ hrest, cacheLookup_cacheSet, if_neg hc]

theorem cacheLookup_processBatch_of_mem (cache : Cache) (b : List Connection)
    (c : Connection) (hnd : (b.map Connection.id).Nodup) (hc : c ∈ b) :
    cacheLookup (processBatch cache b).1 c.id =
      some { up := c.upload, down := c.download } := by
  induction b generalizing cache with
  | nil => cases hc
  | cons a rest ih =>
    simp only [List.map_cons, List.nodup_cons] at hnd
    rcases List.mem_cons.mp hc with rfl | hmem
    · have hrest : ∀ x ∈ rest, x.id ≠ c.id := by
        intro x hx hx2
        exact hnd.1 (hx2 ▸ List.mem_map_of_mem Connection.id hx)
      simp only [processBatch, processConn]
      rw [cacheLookup_processBatch_of_not_mem _ _ _ hrest, cacheLookup_cacheSet,
        if_pos rfl]
    · simpa [processBatch, processConn] using ih _ hnd.2 hmem

theorem prevUp_cacheSet_ne (cache : Cache) (k : String) (v : TrafficCacheType)
    (c : Connection) (h : k ≠ c.id) :
    prevUp (cacheSet cache k v) c = prevUp cache c := by
  simp [prevUp, cacheLookup_cacheSet, h]

theorem prevDown_cacheSet_ne (cache : Cache) (k : String) (v : TrafficCacheType)
    (c : Connection) (h : k ≠ c.id) :
    prevDown (cacheSet cache k v) c = prevDown cache c := by
  simp [prevDown, cacheLookup_cacheSet, h]

theorem processBatch_entry_of_mem (cache : Cache) (b : List Connection)
    (c : Connection) (hnd : (b.map Connection.id).Nodup) (hc : c ∈ b) :
    ∃ e ∈ (processBatch cache b).2,
      e.conn = c ∧ e.up = prevUp cache c ∧ e.down = prevDown cache c := by
  induction b generalizing cache with
  | nil => cases hc
  | cons a rest ih =>
    simp only [List.map_cons, List.nodup_cons] at hnd
    rcases List.mem_cons.mp hc with rfl | hmem
    · exact ⟨{ conn := c, up := prevUp cache c, down := prevDown cache c },
        by simp [processBatch, processConn], rfl, rfl, rfl⟩
    · have hne : a.id ≠ c.id := by
        intro hx2
        exact hnd.1 (hx2 ▸ List.mem_map_of_mem Connection.id hmem)
      obtain ⟨e, hein, heconn, heup, hedown⟩ :=
        ih (cacheSet cache a.id { up := a.upload, down := a.download }) hnd.2 hmem
      refine ⟨e, by simp [processBatch, processConn, hein], heconn, ?_, ?_⟩
      · rw [heup, prevUp_cacheSet_ne _ _ _ _ hne]
      · rw [hedown, prevDown_cacheSet_ne _ _ _ _ hne]

theorem processBatch_baseline_refreshed (cache : Cache) (b : List Connection)
    (hnd : (b.map Connection.id).Nodup)
    (h : ∀ c ∈ b, cacheLookup cache c.id = some { up := c.upload, down := c.download }) :
    ∀ e ∈ (processBatch cache b).2, e.up = e.conn.upload ∧ e.down = e.conn.download := by
  induction b generalizing cache with
  | nil => intro e he; cases he
  | cons a rest ih =>
    simp only [List.map_cons, List.nodup_cons] at hnd
    intro e he
    simp only [processBatch, processConn, List.mem_cons] at he
    rcases he with rfl | he
    · have ha := h a (by simp)
      constructor
      · simp only [prevUp, ha]
        split <;> simp_all
      · simp only [prevDown, ha]
        split <;> simp_all
    · refine ih _ hnd.2 ?_ e he
      intro c hcmem
      have hne : a.id ≠ c.id := by
        intro hx2
        exact hnd.1 (hx2 ▸ List.mem_map_of_mem Connection.id hcmem)
      rw [cacheLookup_cacheSet, if_neg hne]
      exact h c (by simp [hcmem])

theorem recordDisconnected_eq (conns : List Connection)
    (live closed : List ConnectionEntry) :
    recordDisconnected conns live closed =
      closed ++ live.filter (fun e => !(conns.any (fun v => v.id == e.conn.id))) := by
  induction live generalizing closed with
  | nil => simp [recordDisconnected]
  | cons e t ih =>
    simp only [recordDisconnected, List.foldl_cons] at ih ⊢
    by_cases h : conns.any (fun v => v.id == e.conn.id)
    · rw [if_pos h, ih, List.filter_cons]
      simp [h]
    · rw [if_neg h, ih, List.filter_cons]
      simp [h]

theorem isPrefixOf_iff_append (sub : List Char) :
    ∀ s : List Char, List.isPrefixOf sub s = true ↔ ∃ r, s = sub ++ r := by
  induction sub with
  | nil => intro s; simp
  | cons a l ih =>
    intro s
    cases s with
    | nil => simp
    | cons b t =>
      simp only [List.isPrefixOf_cons₂, Bool.and_eq_true, beq_iff_eq, ih,
        List.cons_append, List.cons.injEq]
      constructor
      · rintro ⟨rfl, r, rfl⟩
        exact ⟨r, rfl, rfl⟩
      · rintro ⟨r, rfl, rfl⟩
        exact ⟨rfl, r, rfl⟩

theorem listIncludes_iff (sub : List Char) :
    ∀ s : List Char, listIncludes sub s = true ↔ ∃ l r, s = l ++ sub ++ r := by
  intro s
  induction s with
  | nil =>
    simp only [listIncludes, isPrefixOf_iff_append]
    constructor
    · rintro ⟨r, h⟩
      exact ⟨[], r, h⟩
    · rintro ⟨l, r, h⟩
      refine ⟨r, ?_⟩
      rcases List.append_eq_nil.mp ((List.append_assoc l sub r ▸ h).symm) with ⟨rfl, h2⟩
      simpa using h
  | cons c t ih =>
    simp only [listIncludes, Bool.or_eq_true, isPrefixOf_iff_append, ih]
    constructor
    · rintro (⟨r, hr⟩ | ⟨l, r, hr⟩)
      · exact ⟨[], r, by simpa using hr⟩
      · exact ⟨c :: l, r, by simp [hr]⟩
    · rintro ⟨l, r, hr⟩
      cases l with
      | nil => exact Or.inl ⟨r, by simpa using hr⟩
      | cons a l2 =>
        rcases List.cons.injEq .. ▸ hr with ⟨rfl, h2⟩
        exact Or.inr ⟨l2, r, by simpa using h2⟩

theorem strIncludes_iff (s sub : String) :
    strIncludes s sub = true ↔ ∃ l r, s.toList = l ++ sub.toList ++ r :=
  listIncludes_iff sub.toList s.toList

/-! ### The live-set invariant over traces of actions -/

theorem onConnections_dataSource_nodup (st : ControllerState)
    (data : Option (List Connection))
    (hok : actionOK (Action.batch data))
    (hst : ((st.dataSource.map ConnectionEntry.conn).map Connection.id).Nodup) :
    (((onConnections st data).dataSource.map ConnectionEntry.conn).map
      Connection.id).Nodup := by
  by_cases hp : st.isPause
  · simpa [onConnections, hp] using hst
  · cases data with
    | none => simp [onConnections, hp, processBatch]
    | some b =>
      simp only [onConnections, hp, if_false, Option.getD_some, Bool.false_eq_true]
      rw [processBatch_map_conn]
      exact hok

theorem run_dataSource_nodup (st : ControllerState) (as : List Action)
    (hok : ∀ a ∈ as, actionOK a)
    (hst : ((st.dataSource.map ConnectionEntry.conn).map Connection.id).Nodup) :
    (((run st as).dataSource.map ConnectionEntry.conn).map Connection.id).Nodup := by
  induction as generalizing st with
  | nil => simpa [run, List.map_map] using hst
  | cons a rest ih =>
    have hstep :
        (((stepA st a).dataSource.map ConnectionEntry.conn).map Connection.id).Nodup := by
      cases a with
      | batch data => exact onConnections_dataSource_nodup st data (hok _ (by simp)) hst
      | togglePause => simpa [stepA, togglePause] using hst
      | clearClosed => simpa [stepA, handleClearClosedConns] using hst
      | closeOne isActive ok =>
        simp only [stepA, menuCloseHandler]
        split <;> [skip; split] <;> simpa using hst
    simpa [run, List.foldl_cons] using
      ih (stepA st a) (fun x hx => hok x (by simp [hx])) hstep

theorem onConnections_isPause (st : ControllerState) (data : Option (List Connection)) :
    (onConnections st data).isPause = st.isPause := by
  unfold onConnections
  split <;> rfl

theorem onConnections_not_paused (st : ControllerState) (b : List Connection)
    (hp : st.isPause = false) :
    onConnections st (some b) =
      { dataSource := (processBatch st.cache b).2,
        disconnectedData := recordDisconnected b st.dataSource st.disconnectedData,
        cache := (processBatch st.cache b).1,
        isPause := st.isPause } := by
  simp [onConnections, hp]

/-! ### Concrete fixtures for counterexamples and witnesses -/

/-- Metadata with a known host, as in the spec's examples. -/
def mdEx : ConnMetadata :=
  { host := "example.com", destinationIP := "1.2.3.4", process := "chrome" }

/-- Metadata with a different host, to exercise the keyword filter. -/
def mdTest : ConnMetadata :=
  { host := "test.com", destinationIP := "5.6.7.8", process := "firefox" }

/-- A connection with identity `"a"` and a given cumulative upload counter. -/
def connA (u : Nat) : Connection :=
  { id := "a", metadata := mdEx, upload := u, download := 0 }

/-- A second connection with identity `"b"`. -/
def connB : Connection :=
  { id := "b", metadata := mdTest, upload := 7, download := 3 }

/-! ### Claims -/

/-- C1 counterexample: the derived rate is NOT clamped at zero.  Identity
`"a"` reports cumulative upload `100`, then `40` in the next batch; the
derived upload rate of the resulting live entry is `-60`, which is
negative, refuting the claim that a decreasing counter clamps the rate to
zero. -/
theorem C1_counterexample :
    (onConnections (onConnections initState (some [connA 100]))
        (some [connA 40])).dataSource.map upRate = [-60] ∧
    (-60 : Int) < 0 := by
  constructor
  · decide
  · decide

/-- C1 (amended): for every identity of a processed batch, each derived
rate (upload and download alike) is the current cumulative counter minus
the previous baseline with no clamping: when the cached previous counter
for that component is nonzero the rate is exactly `current - cached`, and
it is negative whenever the counter decreased; only an absent cache entry
or a cached counter equal to zero resets the baseline of that component to
the current counter, yielding a zero rate. -/
theorem C1_amended (st : ControllerState) (b : List Connection) (c : Connection)
    (hp : st.isPause = false) (hnd : (b.map Connection.id).Nodup) (hc : c ∈ b) :
    ∃ e ∈ (onConnections st (some b)).dataSource,
      e.conn = c ∧
      (∀ t, cacheLookup st.cache c.id = some t → t.up ≠ 0 →
        upRate e = (c.upload : Int) - (t.up : Int) ∧
        (c.upload < t.up → upRate e < 0)) ∧
      (∀ t, cacheLookup st.cache c.id = some t → t.down ≠ 0 →
        downRate e = (c.download : Int) - (t.down : Int) ∧
        (c.download < t.down → downRate e < 0)) ∧
      ((cacheLookup st.cache c.id = none ∨
          (∃ t, cacheLookup st.cache c.id = some t ∧ t.up = 0)) →
        e.up = c.upload ∧ upRate e = 0) ∧
      ((cacheLookup st.cache c.id = none ∨
          (∃ t, cacheLookup st.cache c.id = some t ∧ t.down = 0)) →
        e.down = c.download ∧ downRate e = 0) := by
  obtain ⟨e, hein, heconn, heup, hedown⟩ := processBatch_entry_of_mem st.cache b c hnd hc
  refine ⟨e, ?_, heconn, ?_, ?_, ?_, ?_⟩
  · rw [onConnections_not_paused st b hp]
    exact hein
  · intro t ht htup
    have hrate : upRate e = (c.upload : Int) - (t.up : Int) := by
      rw [upRate, heconn, heup]
      simp only [prevUp, ht]
      rw [if_neg htup]
    exact ⟨hrate, fun hlt => by rw [hrate]; omega⟩
  · intro t ht htdown
    have hrate : downRate e = (c.download : Int) - (t.down : Int) := by
      rw [downRate, heconn, hedown]
      simp only [prevDown, ht]
      rw [if_neg htdown]
    exact ⟨hrate, fun hlt => by rw [hrate]; omega⟩
  · rintro (hnone | ⟨t, ht, htz⟩)
    · have hbase : e.up = c.upload := by
        rw [heup]
        simp only [prevUp, hnone]
      exact ⟨hbase, by rw [upRate, heconn, hbase]; omega⟩
    · have hbase : e.up = c.upload := by
        rw [heup]
        simp only [prevUp, ht]
        rw [if_pos htz]
      exact ⟨hbase, by rw [upRate, heconn, hbase]; omega⟩
  · rintro (hnone | ⟨t, ht, htz⟩)
    · have hbase : e.down = c.download := by
        rw [hedown]
        simp only [prevDown, hnone]
      exact ⟨hbase, by rw [downRate, heconn, hbase]; omega⟩
    · have hbase : e.down = c.download := by
        rw [hedown]
        simp only [prevDown, ht]
        rw [if_pos htz]
      exact ⟨hbase, by rw [downRate, heconn, hbase]; omega⟩

/-- C1 witness: the amended statement applied at the concrete two-batch
run of the counterexample (cached counters `up = 100`, `down = 0`, current
counters `up = 40`, `down = 0`): the nonzero-cache clause applies to the
upload component and the zero-cache reset clause to the download
component. -/
theorem C1_amended_witness :
    ∃ e ∈ (onConnections (onConnections initState (some [connA 100]))
        (some [connA 40])).dataSource,
      e.conn = connA 40 ∧
      (∀ t, cacheLookup (onConnections initState (some [connA 100])).cache
          (connA 40).id = some t → t.up ≠ 0 →
        upRate e = ((connA 40).upload : Int) - (t.up : Int) ∧
        ((connA 40).upload < t.up → upRate e < 0)) ∧
      (∀ t, cacheLookup (onConnections initState (some [connA 100])).cache
          (connA 40).id = some t → t.down ≠ 0 →
        downRate e = ((connA 40).download : Int) - (t.down : Int) ∧
        ((connA 40).download < t.down → downRate e < 0)) ∧
      ((cacheLookup (onConnections initState (some [connA 100])).cache
          (connA 40).id = none ∨
        (∃ t, cacheLookup (onConnections initState (some [connA 100])).cache
          (connA 40).id = some t ∧ t.up = 0)) →
        e.up = (connA 40).upload ∧ upRate e = 0) ∧
      ((cacheLookup (onConnections initState (some [connA 100])).cache
          (connA 40).id = none ∨
        (∃ t, cacheLookup (onConnections initState (some [connA 100])).cache
          (connA 40).id = some t ∧ t.down = 0)) →
        e.down = (connA 40).download ∧ downRate e = 0) :=
  C1_amended (onConnections initState (some [connA 100])) [connA 40] (connA 40)
    (by decide) (by decide) (by decide)

/-- C2 counterexample: the baseline is NOT always the counter of the
immediately preceding batch.  Identity `"a"` reports upload `0`, then
`50`: the preceding batch's counter is `0`, so the claim requires baseline
`0` and rate `50`; the code's falsy-test `cache?.up || connection.upload`
replaces a cached `0` by the current counter, giving baseline `50` and
rate `0`. -/
theorem C2_counterexample :
    (onConnections (onConnections initState (some [connA 0]))
        (some [connA 50])).dataSource.map ConnectionEntry.up = [50] ∧
    (onConnections (onConnections initState (some [connA 0]))
        (some [connA 50])).dataSource.map upRate = [0] ∧
    (50 : Nat) ≠ 0 := by
  refine ⟨by decide, by decide, by decide⟩

/-- C2 (amended): for every identity of a processed batch, the baseline is
the cached counter from its most recent prior processing when that value
is nonzero; a zero cached component, or an identity with no cache entry at
all, falls back to the current counter (`prevUp`/`prevDown`); an identity
with no cache entry gets zero initial rates; and the current counters are
always written back as the new cache entry. -/
theorem C2_amended (st : ControllerState) (b : List Connection) (c : Connection)
    (hp : st.isPause = false) (hnd : (b.map Connection.id).Nodup) (hc : c ∈ b) :
    ∃ e ∈ (onConnections st (some b)).dataSource,
      e.conn = c ∧ e.up = prevUp st.cache c ∧ e.down = prevDown st.cache c ∧
      (cacheLookup st.cache c.id = none → upRate e = 0 ∧ downRate e = 0) ∧
      cacheLookup (onConnections st (some b)).cache c.id =
        some { up := c.upload, down := c.download } := by
  obtain ⟨e, hein, heconn, heup, hedown⟩ := processBatch_entry_of_mem st.cache b c hnd hc
  refine ⟨e, ?_, heconn, heup, hedown, ?_, ?_⟩
  · simp [onConnections, hp, hein]
  · intro hnone
    constructor
    · rw [upRate, heconn, heup]
      simp only [prevUp, hnone]
      omega
    · rw [downRate, heconn, hedown]
      simp only [prevDown, hnone]
      omega
  · have := cacheLookup_processBatch_of_mem st.cache b c hnd hc
    simpa [onConnections, hp] using this

/-- C2 witness: the amended statement applied to a first-ever observation
of identity `"a"` with upload `100` (empty cache, zero initial rates). -/
theorem C2_amended_witness :
    ∃ e ∈ (onConnections initState (some [connA 100])).dataSource,
      e.conn = connA 100 ∧ e.up = prevUp initState.cache (connA 100) ∧
      e.down = prevDown initState.cache (connA 100) ∧
      (cacheLookup initState.cache (connA 100).id = none →
        upRate e = 0 ∧ downRate e = 0) ∧
      cacheLookup (onConnections initState (some [connA 100])).cache (connA 100).id =
        some { up := (connA 100).upload, down := (connA 100).download } :=
  C2_amended initState [connA 100] (connA 100) (by decide) (by decide) (by decide)

/-- C3: after applying batch `b` the live set's underlying connections are
exactly `b` (identities and fields refreshed from the batch); the closed
set grows by exactly the previously-live entries whose identity is absent
from `b`, appended in the order of the diff pass over the previous live
set; and replaying the identical batch leaves the live connections the
same, the closed set unchanged, and every repeated entry's derived rates
at zero. -/
theorem C3 (st : ControllerState) (b : List Connection)
    (hp : st.isPause = false) (hnd : (b.map Connection.id).Nodup) :
    ((onConnections st (some b)).dataSource.map ConnectionEntry.conn = b) ∧
    ((onConnections st (some b)).disconnectedData =
      st.disconnectedData ++
        st.dataSource.filter (fun e => !(b.any (fun v => v.id == e.conn.id)))) ∧
    ((onConnections (onConnections st (some b)) (some b)).dataSource.map
        ConnectionEntry.conn = b) ∧
    ((onConnections (onConnections st (some b)) (some b)).disconnectedData =
      (onConnections st (some b)).disconnectedData) ∧
    ∀ e ∈ (onConnections (onConnections st (some b)) (some b)).dataSource,
      upRate e = 0 ∧ downRate e = 0 := by
  have hp1 : (onConnections st (some b)).isPause = false := by
    rw [onConnections_isPause]; exact hp
  have hlive : (onConnections st (some b)).dataSource.map ConnectionEntry.conn = b := by
    rw [onConnections_not_paused st b hp]
    exact processBatch_map_conn st.cache b
  have hcache1 : ∀ c ∈ b, cacheLookup (onConnections st (some b)).cache c.id =
      some { up := c.upload, down := c.download } := by
    intro c hc
    rw [onConnections_not_paused st b hp]
    exact cacheLookup_processBatch_of_mem st.cache b c hnd hc
  have h2 := onConnections_not_paused (onConnections st (some b)) b hp1
  have hnil : (onConnections st (some b)).dataSource.filter
      (fun e => !(b.any (fun v => v.id == e.conn.id))) = [] := by
    rw [List.filter_eq_nil_iff]
    intro e he
    have hconnmem : e.conn ∈ b := hlive ▸ List.mem_map_of_mem ConnectionEntry.conn he
    simp only [Bool.not_eq_true', Bool.not_eq_false, List.any_eq_true]
    exact ⟨e.conn, hconnmem, by simp⟩
  refine ⟨hlive, ?_, ?_, ?_, ?_⟩
  · rw [onConnections_not_paused st b hp]
    exact recordDisconnected_eq b st.dataSource st.disconnectedData
  · rw [h2]
    exact processBatch_map_conn _ b
  · rw [h2]
    show recordDisconnected b (onConnections st (some b)).dataSource
        (onConnections st (some b)).disconnectedData =
      (onConnections st (some b)).disconnectedData
    rw [recordDisconnected_eq, hnil, List.append_nil]
  · intro e he
    rw [h2] at he
    have he2 : e ∈ (processBatch (onConnections st (some b)).cache b).2 := he
    have := processBatch_baseline_refreshed (onConnections st (some b)).cache b hnd
      hcache1 e he2
    constructor
    · rw [upRate, this.1]; omega
    · rw [downRate, this.2]; omega

/-- C3 witness: applied to the state after a first batch containing
identity `"a"`, with a second batch containing only identity `"b"`. -/
theorem C3_witness :
    (onConnections (onConnections initState (some [connA 100]))
        (some [connB])).dataSource.map ConnectionEntry.conn = [connB] :=
  (C3 (onConnections initState (some [connA 100])) [connB] (by decide) (by decide)).1

/-- C4 counterexample: live/closed membership is NOT exclusive.  Identity
`"a"` is live after batch 1, moves to the closed set when absent from
batch 2, and reappears in batch 3: it is then present in the live set and
still present in the closed set at once. -/
theorem C4_counterexample :
    (run initState [Action.batch (some [connA 100]), Action.batch (some []),
      Action.batch (some [connA 500])]).dataSource.map (fun e => e.conn.id) = ["a"] ∧
    (run initState [Action.batch (some [connA 100]), Action.batch (some []),
      Action.batch (some [connA 500])]).disconnectedData.map (fun e => e.conn.id) =
      ["a"] := by
  refine ⟨by decide, by decide⟩

/-- C4 (amended): at every state reachable from the initial state by
batches, pause toggles, clear-closed and close actions, the live set holds
at most one entry per identity, provided every delivered batch lists each
identity at most once; live/closed exclusivity, however, does not hold —
an identity that closed and later reappears in a batch is present in both
sets simultaneously. -/
theorem C4_amended (as : List Action) (hok : ∀ a ∈ as, actionOK a) :
    ((run initState as).dataSource.map (fun e => e.conn.id)).Nodup := by
  have h := run_dataSource_nodup initState as hok (by simp [initState])
  simpa [List.map_map] using h

/-- C4 witness: the amended statement applied to a two-batch trace whose
batches have pairwise distinct identities. -/
theorem C4_amended_witness :
    ((run initState [Action.batch (some [connA 100, connB]),
        Action.batch (some [connB])]).dataSource.map (fun e => e.conn.id)).Nodup :=
  C4_amended [Action.batch (some [connA 100, connB]), Action.batch (some [connB])]
    (by decide)

/-- C5 counterexample: a reappearing identity does NOT get a fresh
previous-counter baseline.  Identity `"a"` reports upload `100`, drops out
of batch 2 (moving to the closed set), and reappears in batch 3 with
upload `500`: the stale cache entry survives the closure, so the initial
derived rate on reappearance is `400`, not `0`. -/
theorem C5_counterexample :
    (onConnections (onConnections (onConnections initState (some [connA 100]))
        (some [])) (some [connA 500])).dataSource.map upRate = [400] ∧
    (400 : Int) ≠ 0 := by
  refine ⟨by decide, by decide⟩

/-- C5 (amended): an identity that transitioned live → closed and
reappears is indeed appended to the live set as a fresh entry carrying the
new batch's fields, and its closed record is kept unmerged — but its
baseline is the stale cached counter recorded before it closed (when that
counter is nonzero), so its initial rate on reappearance is
`newCounter - staleCounter`, not zero. -/
theorem C5_amended (u u2 : Nat) (hu : u ≠ 0) :
    (onConnections (onConnections (onConnections initState (some [connA u]))
        (some [])) (some [connA u2])).dataSource.map ConnectionEntry.conn =
      [connA u2] ∧
    (onConnections (onConnections (onConnections initState (some [connA u]))
        (some [])) (some [connA u2])).disconnectedData.map ConnectionEntry.conn =
      [connA u] ∧
    (onConnections (onConnections (onConnections initState (some [connA u]))
        (some [])) (some [connA u2])).dataSource.map ConnectionEntry.up = [u] ∧
    (onConnections (onConnections (onConnections initState (some [connA u]))
        (some [])) (some [connA u2])).dataSource.map upRate =
      [(u2 : Int) - (u : Int)] := by
  simp [onConnections, initState, processBatch, processConn, prevUp, prevDown,
    recordDisconnected, cacheLookup, cacheSet, connA, upRate, hu]

/-- C5 witness: the amended statement at stale counter `100` and
reappearance counter `500` (initial rate `400`). -/
theorem C5_amended_witness :
    (onConnections (onConnections (onConnections initState (some [connA 100]))
        (some [])) (some [connA 500])).dataSource.map ConnectionEntry.conn =
      [connA 500] ∧
    (onConnections (onConnections (onConnections initState (some [connA 100]))
        (some [])) (some [connA 500])).disconnectedData.map ConnectionEntry.conn =
      [connA 100] ∧
    (onConnections (onConnections (onConnections initState (some [connA 100]))
        (some [])) (some [connA 500])).dataSource.map ConnectionEntry.up = [100] ∧
    (onConnections (onConnections (onConnections initState (some [connA 100]))
        (some [])) (some [connA 500])).dataSource.map upRate =
      [(500 : Int) - (100 : Int)] :=
  C5_amended 100 500 (by decide)

/-- C6 counterexample: a successful close does NOT remove the entry from
the live set.  With identity `"a"` live and the external terminate call
succeeding, the close handler leaves the state unchanged and `"a"` is
still in the live set, refuting the claim of immediate removal. -/
theorem C6_counterexample :
    (menuCloseHandler true (onConnections initState (some [connA 100])) true).1 =
      onConnections initState (some [connA 100]) ∧
    (menuCloseHandler true (onConnections initState (some [connA 100]))
        true).1.dataSource.map (fun e => e.conn.id) = ["a"] := by
  refine ⟨by decide, by decide⟩

/-- C6 (amended): the close handler never modifies the ledger state — on
success the entry stays live until a later batch omits it — and it reports
an error exactly when the active tab is selected and the terminate call
fails. -/
theorem C6_amended (isActive : Bool) (st : ControllerState) (ok : Bool) :
    (menuCloseHandler isActive st ok).1 = st ∧
    ((menuCloseHandler isActive st ok).2 = true ↔ (isActive = true ∧ ok = false)) := by
  unfold menuCloseHandler
  cases isActive <;> cases ok <;> simp

/-- C7: the rule expression submitted by the addTo* handlers is exactly
`"DOMAIN,<host>"` when the entry's host is non-empty, and exactly
`"IP-CIDR,<destinationIP>/32,no-resolve"` when the host is empty. -/
theorem C7 (m : ConnMetadata) :
    (m.host ≠ "" → ruleExpression m = "DOMAIN," ++ m.host) ∧
    (m.host = "" →
      ruleExpression m = "IP-CIDR," ++ m.destinationIP ++ "/32,no-resolve") := by
  constructor
  · intro h
    rw [ruleExpression]
    simp only [h, if_neg h]
    rfl
  · intro h
    rw [ruleExpression]
    simp only [h, if_pos rfl]
    rw [String.append_assoc, String.append_assoc]
    rfl

/-- C7 witness: the two wire-format examples from the spec, obtained by
applying the theorem at hosts `"example.com"` and `""`. -/
theorem C7_witness :
    ruleExpression mdEx = "DOMAIN," ++ mdEx.host ∧
    ruleExpression { host := "", destinationIP := "1.2.3.4", process := "x" } =
      "IP-CIDR," ++
        ({ host := "", destinationIP := "1.2.3.4", process := "x" } :
          ConnMetadata).destinationIP ++ "/32,no-resolve" :=
  ⟨(C7 mdEx).1 (by decide),
   (C7 { host := "", destinationIP := "1.2.3.4", process := "x" }).2 rfl⟩

/-- C8: every batch arriving while paused is discarded — an arbitrary
sequence of batch deliveries leaves a paused state entirely unchanged (no
backlog is kept) — and the first batch processed after resuming gives any
identity with no traffic-cache entry a baseline equal to its own current
counters, hence zero derived rates, with no synthetic delta spanning the
paused gap. -/
theorem C8 (st : ControllerState) (ds : List (Option (List Connection)))
    (b : List Connection) (c : Connection) (hp : st.isPause = true)
    (hc : cacheLookup st.cache c.id = none) (hmem : c ∈ b)
    (hnd : (b.map Connection.id).Nodup) :
    run st (ds.map Action.batch) = st ∧
    ∃ e ∈ (onConnections (togglePause (run st (ds.map Action.batch)))
        (some b)).dataSource,
      e.conn = c ∧ upRate e = 0 ∧ downRate e = 0 := by
  have hdiscard : run st (ds.map Action.batch) = st := by
    induction ds with
    | nil => rfl
    | cons d rest ih =>
      have hstep : stepA st (Action.batch d) = st := by
        simp [stepA, onConnections, hp]
      calc run st ((d :: rest).map Action.batch)
          = run (stepA st (Action.batch d)) (rest.map Action.batch) := rfl
        _ = run st (rest.map Action.batch) := by rw [hstep]
        _ = st := ih
  refine ⟨hdiscard, ?_⟩
  rw [hdiscard]
  have hp2 : (togglePause st).isPause = false := by
    simp [togglePause, hp]
  obtain ⟨e, hein, heconn, heup, hedown⟩ :=
    processBatch_entry_of_mem (togglePause st).cache b c hnd hmem
  have hclean : cacheLookup (togglePause st).cache c.id = none := hc
  refine ⟨e, ?_, heconn, ?_, ?_⟩
  · rw [onConnections_not_paused (togglePause st) b hp2]
    exact hein
  · rw [upRate, heconn, heup]
    simp only [prevUp, hclean]
    omega
  · rw [downRate, heconn, hedown]
    simp only [prevDown, hclean]
    omega

/-- C8 witness: the theorem applied to a paused initial state, two batch
deliveries while paused, and a first post-resume batch containing the
never-tracked identity `"a"`. -/
theorem C8_witness :
    run (togglePause initState) ([some [connB], none].map Action.batch) =
      togglePause initState ∧
    ∃ e ∈ (onConnections (togglePause (run (togglePause initState)
        ([some [connB], none].map Action.batch))) (some [connA 100])).dataSource,
      e.conn = connA 100 ∧ upRate e = 0 ∧ downRate e = 0 :=
  C8 (togglePause initState) [some [connB], none] [connA 100] (connA 100)
    (by decide) (by decide) (by decide) (by decide)

/-- C9: the projected view is the unfiltered current selection when the
keyword is empty, and in general an entry is in the projected view exactly
when it is in the current selection and the keyword occurs as a
(case-sensitive) contiguous substring of its host field — no other
metadata field participates. -/
theorem C9 (kw : String) (isActive : Bool) (st : ControllerState) :
    (kw = "" → filteredConnections kw isActive st =
      (if isActive then st.dataSource else st.disconnectedData)) ∧
    (∀ e, e ∈ filteredConnections kw isActive st ↔
      e ∈ (if isActive then st.dataSource else st.disconnectedData) ∧
        ∃ l r, e.conn.metadata.host.toList = l ++ kw.toList ++ r) := by
  constructor
  · intro h
    rw [filteredConnections, if_pos h]
  · intro e
    by_cases h : kw = ""
    · subst h
      rw [filteredConnections, if_pos rfl]
      constructor
      · intro hmem
        exact ⟨hmem, [], e.conn.metadata.host.toList, by simp⟩
      · intro hmem
        exact hmem.1
    · rw [filteredConnections, if_neg h, List.mem_filter, strIncludes_iff]

/-- C9 witness: the empty keyword returns the live selection unfiltered,
at a state holding entries with hosts `"example.com"` and `"test.com"`. -/
theorem C9_witness :
    filteredConnections "" true (onConnections initState (some [connA 5, connB])) =
      (if true then (onConnections initState (some [connA 5, connB])).dataSource
        else (onConnections initState (some [connA 5, connB])).disconnectedData) :=
  (C9 "" true (onConnections initState (some [connA 5, connB]))).1 rfl

/-- C10: a delivered batch object with no connections list (modelled as
`none`) is processed, without error, as the empty batch: the live set
becomes empty, every previously-live entry is appended to the closed set,
and the traffic cache is untouched. -/
theorem C10 (st : ControllerState) (hp : st.isPause = false) :
    (onConnections st none).dataSource = [] ∧
    (onConnections st none).disconnectedData =
      st.disconnectedData ++ st.dataSource ∧
    (onConnections st none).cache = st.cache := by
  have hun : onConnections st none =
      { dataSource := (processBatch st.cache []).2,
        disconnectedData := recordDisconnected [] st.dataSource st.disconnectedData,
        cache := (processBatch st.cache []).1,
        isPause := st.isPause } := by
    simp [onConnections, hp]
  rw [hun]
  refine ⟨rfl, ?_, rfl⟩
  show recordDisconnected [] st.dataSource st.disconnectedData =
    st.disconnectedData ++ st.dataSource
  rw [recordDisconnected_eq]
  simp

/-- C10 witness: the theorem applied to a state with two live entries
(the closed set at that state is empty, since the second batch still
contains identity `"a"`). -/
theorem C10_witness :
    (onConnections (onConnections (onConnections initState (some [connA 9]))
        (some [connA 9, connB])) none).dataSource = [] ∧
    (onConnections (onConnections (onConnections initState (some [connA 9]))
        (some [connA 9, connB])) none).disconnectedData =
      (onConnections (onConnections initState (some [connA 9]))
        (some [connA 9, connB])).disconnectedData ++
      (onConnections (onConnections initState (some [connA 9]))
        (some [connA 9, connB])).dataSource ∧
    (onConnections (onConnections (onConnections initState (some [connA 9]))
        (some [connA 9, connB])) none).cache =
      (onConnections (onConnections initState (some [connA 9]))
        (some [connA 9, connB])).cache :=
  C10 (onConnections (onConnections initState (some [connA 9]))
    (some [connA 9, connB])) (by decide)

end GUIForClash
